import Mathlib

/-!
Shallow embedding of the IoT device-registry chaincode
(`chaincode/chaincode/smartcontract.go`): the `Device` and `DataRecord`
entities, their JSON (de)serialization, the world-state ledger collaborator,
and the six public operations `RegisterDevice`, `DeviceExists`, `GetDevice`,
`SubmitData`, `GetDataRecord`, `VerifyData`.

The ledger collaborator (Fabric stub: `GetState`, `PutState`,
`CreateCompositeKey`) is not part of the repository; it is modelled from the
spec's external-interface contract (spec section 6): a deterministic key to
payload mapping with `Get`, `Put`, and an injective composite-key builder.
In this deterministic model the collaborator never fails, so the chaincode's
`LedgerIOError` propagation branches never fire; all remaining error paths
are translated verbatim.
-/

/-- `Device` struct (smartcontract.go lines 16-21). All fields are Go
strings with json tags `id`, `owner`, `location`, `status`. -/
structure Device where
  id : String
  owner : String
  location : String
  status : String
deriving DecidableEq

/-- `DataRecord` struct (smartcontract.go lines 24-30). Go json tags
`deviceID`, `timestamp`, `data`, `status`, and `verifierID,omitempty`. -/
structure DataRecord where
  deviceID : String
  timestamp : String
  data : String
  status : String
  verifierID : String
deriving DecidableEq

/-- JSON values, the payloads produced by `json.Marshal` and consumed by
`json.Unmarshal`. Modelled as an abstract syntax tree rather than a byte
string; Go's encoder and decoder are lossless on string contents, so the
AST level is where (de)serialization behaviour lives. -/
inductive JsonValue where
  | null : JsonValue
  | bool (b : Bool) : JsonValue
  | num (n : Int) : JsonValue
  | str (s : String) : JsonValue
  | arr (xs : List JsonValue) : JsonValue
  | obj (fields : List (String × JsonValue)) : JsonValue

/-- Field lookup in a decoded JSON object. Go's decoder assigns struct
fields as it encounters object keys, so on duplicate keys the last
occurrence wins. -/
def lookupField : List (String × JsonValue) → String → Option JsonValue
  | [], _ => none
  | (k, v) :: rest, name =>
    match lookupField rest name with
    | some v' => some v'
    | none => if k = name then some v else none

/-- Decoding one Go string-typed struct field: a missing key or JSON null
leaves the field at its zero value `""`; a JSON string sets it; any other
JSON type is an unmarshal type error. -/
def getStrField (fields : List (String × JsonValue)) (name : String) :
    Except Unit String :=
  match lookupField fields name with
  | none => .ok ""
  | some .null => .ok ""
  | some (.str s) => .ok s
  | some _ => .error ()

/-- `json.Marshal` of a `Device`: object with the four tagged fields in
struct declaration order. -/
def Device.marshal (d : Device) : JsonValue :=
  .obj [("id", .str d.id), ("owner", .str d.owner),
        ("location", .str d.location), ("status", .str d.status)]

/-- `json.Unmarshal` into a `Device`: accepts a JSON object (or null,
which Go leaves at the zero value); any other JSON type fails. -/
def Device.unmarshal (j : JsonValue) : Except Unit Device :=
  match j with
  | .null => .ok ⟨"", "", "", ""⟩
  | .obj fields => do
    let id ← getStrField fields "id"
    let owner ← getStrField fields "owner"
    let location ← getStrField fields "location"
    let status ← getStrField fields "status"
    .ok ⟨id, owner, location, status⟩
  | _ => .error ()

/-- `json.Marshal` of a `DataRecord`: the `verifierID` field carries
`omitempty`, so it is omitted when empty. -/
def DataRecord.marshal (r : DataRecord) : JsonValue :=
  .obj ([("deviceID", .str r.deviceID), ("timestamp", .str r.timestamp),
         ("data", .str r.data), ("status", .str r.status)] ++
        (if r.verifierID = "" then [] else [("verifierID", .str r.verifierID)]))

/-- `json.Unmarshal` into a `DataRecord`; an absent `verifierID` key
yields the zero value `""`. -/
def DataRecord.unmarshal (j : JsonValue) : Except Unit DataRecord :=
  match j with
  | .null => .ok ⟨"", "", "", "", ""⟩
  | .obj fields => do
    let deviceID ← getStrField fields "deviceID"
    let timestamp ← getStrField fields "timestamp"
    let data ← getStrField fields "data"
    let status ← getStrField fields "status"
    let verifierID ← getStrField fields "verifierID"
    .ok ⟨deviceID, timestamp, data, status, verifierID⟩
  | _ => .error ()

/-- Modelled from the spec: storage keys of the ledger collaborator.
Devices are stored under their id used verbatim as key (`simple`);
data records under a composite key built from a category label and an
ordered attribute list (`composite`), which the spec's
`BuildCompositeKey` contract requires to be deterministic and
collision-free, and hence disjoint from the simple keys. -/
inductive LKey where
  | simple (k : String) : LKey
  | composite (objectType : String) (attrs : List String) : LKey
deriving DecidableEq

/-- Modelled from the spec: the world state, a mapping from key to the
most recently written payload (`none` when never written). -/
def Ledger : Type := LKey → Option JsonValue

/-- Modelled from the spec: `Put` durably associates a key with a
payload, replacing any prior value and touching no other key. -/
def Ledger.put (st : Ledger) (k : LKey) (v : JsonValue) : Ledger :=
  fun k' => if k' = k then some v else st k'

/-- The ledger before any operation has run. -/
def emptyLedger : Ledger := fun _ => none

/-- Error outcomes of the chaincode operations, one constructor per
`fmt.Errorf` site reachable in this deterministic model (the
`LedgerIOError` wrapping branches cannot fire). -/
inductive ChainErr where
  | alreadyExists (deviceID : String) : ChainErr
  | deviceNotRegistered (deviceID : String) : ChainErr
  | notFound : ChainErr
  | deserializationError : ChainErr
deriving DecidableEq

/-- `CreateCompositeKey("DataRecord", []string{deviceID, timestamp})` as
used by `SubmitData`, `VerifyData` and `GetDataRecord`. -/
def dataRecordKey (deviceID timestamp : String) : LKey :=
  .composite "DataRecord" [deviceID, timestamp]

/-- `DeviceExists` (smartcontract.go lines 60-66): reads key `deviceID`
and reports whether a value is present. -/
def deviceExists (st : Ledger) (deviceID : String) : Bool :=
  (st (.simple deviceID)).isSome

/-- `RegisterDevice` (smartcontract.go lines 33-57): rejects an already
registered id, otherwise writes the new `Device` with status `"active"`
under key `deviceID`. -/
def registerDevice (st : Ledger) (deviceID owner location : String) :
    Except ChainErr Ledger :=
  if deviceExists st deviceID then
    .error (.alreadyExists deviceID)
  else
    let device : Device := ⟨deviceID, owner, location, "active"⟩
    .ok (st.put (.simple deviceID) device.marshal)

/-- `SubmitData` (smartcontract.go lines 69-99): requires the device to
be registered, then writes a fresh `DataRecord` with status `"pending"`
(and zero-valued `verifierID`) under the composite key. -/
def submitData (st : Ledger) (deviceID timestamp data : String) :
    Except ChainErr Ledger :=
  if deviceExists st deviceID then
    let dataRecord : DataRecord := ⟨deviceID, timestamp, data, "pending", ""⟩
    .ok (st.put (dataRecordKey deviceID timestamp) dataRecord.marshal)
  else
    .error (.deviceNotRegistered deviceID)

/-- `VerifyData` (smartcontract.go lines 102-138): loads the record at
the composite key, sets `status` from `isValid` and `verifierID` from
the caller, and writes the record back under the same key. -/
def verifyData (st : Ledger) (deviceID timestamp verifierID : String)
    (isValid : Bool) : Except ChainErr Ledger :=
  match st (dataRecordKey deviceID timestamp) with
  | none => .error .notFound
  | some dataJSON =>
    match DataRecord.unmarshal dataJSON with
    | .error _ => .error .deserializationError
    | .ok dataRecord =>
      let updated : DataRecord :=
        { dataRecord with
          status := if isValid then "verified" else "rejected",
          verifierID := verifierID }
      .ok (st.put (dataRecordKey deviceID timestamp) updated.marshal)

/-- `GetDevice` (smartcontract.go lines 141-156): reads and deserializes
the device stored under `deviceID`. -/
def getDevice (st : Ledger) (deviceID : String) : Except ChainErr Device :=
  match st (.simple deviceID) with
  | none => .error .notFound
  | some deviceJSON =>
    match Device.unmarshal deviceJSON with
    | .error _ => .error .deserializationError
    | .ok device => .ok device

/-- `GetDataRecord` (smartcontract.go lines 159-179): reads and
deserializes the record stored under the composite key. -/
def getDataRecord (st : Ledger) (deviceID timestamp : String) :
    Except ChainErr DataRecord :=
  match st (dataRecordKey deviceID timestamp) with
  | none => .error .notFound
  | some dataJSON =>
    match DataRecord.unmarshal dataJSON with
    | .error _ => .error .deserializationError
    | .ok dataRecord => .ok dataRecord

/-- One successful state-changing transaction: any of the three mutating
operations returning success. The read-only operations (`DeviceExists`,
`GetDevice`, `GetDataRecord`) never change the state. -/
inductive Step : Ledger → Ledger → Prop where
  | register (st st' : Ledger) (d o l : String) :
      registerDevice st d o l = .ok st' → Step st st'
  | submit (st st' : Ledger) (d t x : String) :
      submitData st d t x = .ok st' → Step st st'
  | verify (st st' : Ledger) (d t v : String) (b : Bool) :
      verifyData st d t v b = .ok st' → Step st st'

/-- Reflexive-transitive closure of a relation on ledgers. -/
inductive Steps (R : Ledger → Ledger → Prop) : Ledger → Ledger → Prop where
  | refl (st : Ledger) : Steps R st st
  | tail (st st' st'' : Ledger) :
      Steps R st st' → R st' st'' → Steps R st st''

/-- Ledger states reachable from the empty world state by the public
operations. -/
inductive Reachable : Ledger → Prop where
  | empty : Reachable emptyLedger
  | step (st st' : Ledger) : Reachable st → Step st st' → Reachable st'

/-! ## Invariants and the per-record state machine -/

/-- Every stored data record sits under the composite key of its own
`(deviceID, timestamp)` pair and its device is registered. -/
def LedgerWF (st : Ledger) : Prop :=
  ∀ d t j, st (dataRecordKey d t) = some j →
    deviceExists st d = true ∧
    ∃ r, DataRecord.unmarshal j = .ok r ∧ r.deviceID = d

/-- Spec invariant I2: no data record exists for an unregistered device. -/
def RefIntegrity (st : Ledger) : Prop :=
  ∀ d t j r, st (dataRecordKey d t) = some j →
    DataRecord.unmarshal j = .ok r → deviceExists st r.deviceID = true

/-- The record stored under the composite key of `(d, t)` parses and is
in one of the two terminal states. -/
def TerminalAt (st : Ledger) (d t : String) : Prop :=
  ∃ j r, st (dataRecordKey d t) = some j ∧
    DataRecord.unmarshal j = .ok r ∧
    (r.status = "verified" ∨ r.status = "rejected")

/-- The record stored under the composite key of `(d, t)` parses and is
pending. -/
def PendingAt (st : Ledger) (d t : String) : Prop :=
  ∃ j r, st (dataRecordKey d t) = some j ∧
    DataRecord.unmarshal j = .ok r ∧ r.status = "pending"

/-- A successful transaction that is not a re-submission for the pair
`(d, t)`: `RegisterDevice` and `VerifyData` steps are unrestricted, while
`SubmitData` steps must target a different `(deviceID, timestamp)` pair. -/
inductive StepNR (d t : String) : Ledger → Ledger → Prop where
  | register (st st' : Ledger) (d0 o0 l0 : String) :
      registerDevice st d0 o0 l0 = .ok st' → StepNR d t st st'
  | submit (st st' : Ledger) (d0 t0 x0 : String) :
      ¬(d0 = d ∧ t0 = t) → submitData st d0 t0 x0 = .ok st' → StepNR d t st st'
  | verify (st st' : Ledger) (d0 t0 v0 : String) (b0 : Bool) :
      verifyData st d0 t0 v0 b0 = .ok st' → StepNR d t st st'


/-! ## Concrete states used to exercise the operations -/

/-- The ledger after `RegisterDevice("d", "o", "l")` on the empty state. -/
def stDev : Ledger :=
  emptyLedger.put (.simple "d") (Device.marshal ⟨"d", "o", "l", "active"⟩)

/-- `stDev` after `SubmitData("d", "t", "x")`: one pending record. -/
def stPend : Ledger :=
  stDev.put (dataRecordKey "d" "t")
    (DataRecord.marshal ⟨"d", "t", "x", "pending", ""⟩)

/-- `stPend` after `VerifyData("d", "t", "v", true)`: the record is
verified. -/
def stVer : Ledger :=
  stPend.put (dataRecordKey "d" "t")
    (DataRecord.marshal ⟨"d", "t", "x", "verified", "v"⟩)

/-- `stVer` after a second `SubmitData("d", "t", "y")`: the verified
record has been overwritten by a fresh pending one. -/
def stRePend : Ledger :=
  stVer.put (dataRecordKey "d" "t")
    (DataRecord.marshal ⟨"d", "t", "y", "pending", ""⟩)

/-- `stVer` after a second `VerifyData("d", "t", "v2", false)`: the
verified record has been overwritten with a rejected one. -/
def stReVer : Ledger :=
  stVer.put (dataRecordKey "d" "t")
    (DataRecord.marshal ⟨"d", "t", "x", "rejected", "v2"⟩)

/-! ## Basic lemmas about the ledger collaborator and serialization -/

theorem put_same (st : Ledger) (k : LKey) (v : JsonValue) :
    st.put k v k = some v := by
  simp [Ledger.put]

theorem put_other (st : Ledger) (k k' : LKey) (v : JsonValue) (h : k' ≠ k) :
    st.put k v k' = st k' := by
  simp [Ledger.put, h]

theorem device_roundtrip (d : Device) :
    Device.unmarshal d.marshal = .ok d := by
  cases d
  simp [Device.marshal, Device.unmarshal, getStrField, lookupField,
    Bind.bind, Except.bind]

theorem dataRecord_roundtrip (r : DataRecord) :
    DataRecord.unmarshal r.marshal = .ok r := by
  cases r with
  | mk dID ts dat stt vID =>
    by_cases h : vID = "" <;>
      simp [DataRecord.marshal, DataRecord.unmarshal, getStrField, lookupField,
        h, Bind.bind, Except.bind]

theorem dataRecordKey_ne_simple (d t k : String) :
    dataRecordKey d t ≠ LKey.simple k := by
  simp [dataRecordKey]

theorem dataRecordKey_inj (d t d' t' : String) :
    dataRecordKey d t = dataRecordKey d' t' ↔ d = d' ∧ t = t' := by
  simp [dataRecordKey]

theorem deviceExists_put_composite (st : Ledger) (d0 t0 : String)
    (v : JsonValue) (d : String) :
    deviceExists (st.put (dataRecordKey d0 t0) v) d = deviceExists st d := by
  simp [deviceExists, Ledger.put, dataRecordKey]

theorem deviceExists_put_simple_mono (st : Ledger) (k d : String) (v : JsonValue)
    (h : deviceExists st d = true) :
    deviceExists (st.put (.simple k) v) d = true := by
  by_cases hk : d = k
  · subst hk
    simp [deviceExists, Ledger.put]
  · simpa [deviceExists, Ledger.put, hk] using h

/-! ## Inversion lemmas for the three mutating operations -/

theorem registerDevice_ok_iff (st st' : Ledger) (d o l : String) :
    registerDevice st d o l = .ok st' ↔
      deviceExists st d = false ∧
        st' = st.put (.simple d) (Device.marshal ⟨d, o, l, "active"⟩) := by
  unfold registerDevice
  by_cases h : deviceExists st d <;> simp [h, eq_comm]

theorem registerDevice_error_iff (st : Ledger) (d o l : String) (e : ChainErr) :
    registerDevice st d o l = .error e ↔
      deviceExists st d = true ∧ e = .alreadyExists d := by
  unfold registerDevice
  by_cases h : deviceExists st d <;> simp [h, eq_comm]

theorem submitData_ok_iff (st st' : Ledger) (d t x : String) :
    submitData st d t x = .ok st' ↔
      deviceExists st d = true ∧
        st' = st.put (dataRecordKey d t)
          (DataRecord.marshal ⟨d, t, x, "pending", ""⟩) := by
  unfold submitData
  by_cases h : deviceExists st d <;> simp [h, eq_comm]

theorem submitData_error_iff (st : Ledger) (d t x : String) (e : ChainErr) :
    submitData st d t x = .error e ↔
      deviceExists st d = false ∧ e = .deviceNotRegistered d := by
  unfold submitData
  by_cases h : deviceExists st d <;> simp [h, eq_comm]

theorem verifyData_ok_iff (st st' : Ledger) (d t v : String) (b : Bool) :
    verifyData st d t v b = .ok st' ↔
      ∃ j r, st (dataRecordKey d t) = some j ∧
        DataRecord.unmarshal j = .ok r ∧
        st' = st.put (dataRecordKey d t)
          (DataRecord.marshal
            { r with status := if b then "verified" else "rejected",
                     verifierID := v }) := by
  unfold verifyData
  cases hj : st (dataRecordKey d t) with
  | none => simp [hj]
  | some j =>
    cases hr : DataRecord.unmarshal j with
    | error u => simp [hj, hr]
    | ok r => simp [hj, hr, eq_comm]

theorem verifyData_error_iff (st : Ledger) (d t v : String) (b : Bool)
    (e : ChainErr) :
    verifyData st d t v b = .error e ↔
      (st (dataRecordKey d t) = none ∧ e = .notFound) ∨
      (∃ j, st (dataRecordKey d t) = some j ∧
        DataRecord.unmarshal j = .error () ∧ e = .deserializationError) := by
  unfold verifyData
  cases hj : st (dataRecordKey d t) with
  | none => simp [hj, eq_comm]
  | some j =>
    cases hr : DataRecord.unmarshal j with
    | error u => simp [hj, hr, eq_comm]
    | ok r => simp [hj, hr]

/-! ## Read lemmas -/

theorem getDevice_of_stored (st : Ledger) (k : String) (d : Device)
    (h : st (.simple k) = some d.marshal) :
    getDevice st k = .ok d := by
  unfold getDevice
  simp [h, device_roundtrip]

theorem getDataRecord_of_stored (st : Ledger) (d t : String) (r : DataRecord)
    (h : st (dataRecordKey d t) = some r.marshal) :
    getDataRecord st d t = .ok r := by
  unfold getDataRecord
  simp [h, dataRecord_roundtrip]

theorem getDataRecord_of_absent (st : Ledger) (d t : String)
    (h : st (dataRecordKey d t) = none) :
    getDataRecord st d t = .error .notFound := by
  unfold getDataRecord
  simp [h]

/-! ## Well-formedness invariant of reachable ledgers -/

theorem ledgerWF_empty : LedgerWF emptyLedger := by
  intro d t j h
  simp [emptyLedger] at h

theorem ledgerWF_step (st st' : Ledger) (hwf : LedgerWF st)
    (hstep : Step st st') : LedgerWF st' := by
  cases hstep with
  | register d0 o0 l0 hok =>
    rw [registerDevice_ok_iff] at hok
    obtain ⟨-, rfl⟩ := hok
    intro d t j hj
    rw [put_other _ _ _ _ (dataRecordKey_ne_simple d t d0)] at hj
    obtain ⟨hdev, r, hr, hid⟩ := hwf d t j hj
    exact ⟨deviceExists_put_simple_mono st d0 d _ hdev, r, hr, hid⟩
  | submit d0 t0 x0 hok =>
    rw [submitData_ok_iff] at hok
    obtain ⟨hdev0, rfl⟩ := hok
    intro d t j hj
    rw [deviceExists_put_composite]
    by_cases hk : dataRecordKey d t = dataRecordKey d0 t0
    · rw [dataRecordKey_inj] at hk
      obtain ⟨rfl, rfl⟩ := hk
      rw [put_same] at hj
      obtain rfl := Option.some_injective _ hj.symm
      exact ⟨hdev0, ⟨d, t, x0, "pending", ""⟩, dataRecord_roundtrip _, rfl⟩
    · rw [put_other _ _ _ _ hk] at hj
      exact hwf d t j hj
  | verify d0 t0 v0 b0 hok =>
    rw [verifyData_ok_iff] at hok
    obtain ⟨j0, r0, hj0, hr0, rfl⟩ := hok
    intro d t j hj
    rw [deviceExists_put_composite]
    by_cases hk : dataRecordKey d t = dataRecordKey d0 t0
    · rw [dataRecordKey_inj] at hk
      obtain ⟨rfl, rfl⟩ := hk
      rw [put_same] at hj
      obtain rfl := Option.some_injective _ hj.symm
      obtain ⟨hdev0, r1, hr1, hid1⟩ := hwf d t j0 hj0
      rw [hr0] at hr1
      obtain rfl := Except.ok.inj hr1
      exact ⟨hdev0, _, dataRecord_roundtrip _, hid1⟩
    · rw [put_other _ _ _ _ hk] at hj
      exact hwf d t j hj

theorem reachable_ledgerWF (st : Ledger) (h : Reachable st) : LedgerWF st := by
  induction h with
  | empty => exact ledgerWF_empty
  | step st st' _ hstep ih => exact ledgerWF_step st st' ih hstep

/-! ## The status state machine of a single data record -/

theorem terminalAt_stepNR (d t : String) (st st' : Ledger)
    (hterm : TerminalAt st d t) (hstep : StepNR d t st st') :
    TerminalAt st' d t := by
  obtain ⟨j, r, hj, hr, hstatus⟩ := hterm
  cases hstep with
  | register d0 o0 l0 hok =>
    rw [registerDevice_ok_iff] at hok
    obtain ⟨-, rfl⟩ := hok
    exact ⟨j, r, by rw [put_other _ _ _ _ (dataRecordKey_ne_simple d t d0)]; exact hj,
      hr, hstatus⟩
  | submit d0 t0 x0 hne hok =>
    rw [submitData_ok_iff] at hok
    obtain ⟨-, rfl⟩ := hok
    have hk : dataRecordKey d t ≠ dataRecordKey d0 t0 := by
      intro h
      rw [dataRecordKey_inj] at h
      exact hne ⟨h.1.symm, h.2.symm⟩
    exact ⟨j, r, by rw [put_other _ _ _ _ hk]; exact hj, hr, hstatus⟩
  | verify d0 t0 v0 b0 hok =>
    rw [verifyData_ok_iff] at hok
    obtain ⟨j0, r0, hj0, hr0, rfl⟩ := hok
    by_cases hk : dataRecordKey d t = dataRecordKey d0 t0
    · rw [← hk] at hj0
      refine ⟨_, _, by rw [hk, put_same], dataRecord_roundtrip _, ?_⟩
      cases b0 <;> simp
    · exact ⟨j, r, by rw [put_other _ _ _ _ hk]; exact hj, hr, hstatus⟩

theorem terminalAt_stepsNR (d t : String) (st st' : Ledger)
    (hterm : TerminalAt st d t) (h : Steps (StepNR d t) st st') :
    TerminalAt st' d t := by
  induction h with
  | refl => exact hterm
  | tail st1 st2 hsteps hstep ih => exact terminalAt_stepNR d t _ _ ih hstep

theorem terminalAt_not_pendingAt (st : Ledger) (d t : String)
    (hterm : TerminalAt st d t) : ¬ PendingAt st d t := by
  obtain ⟨j, r, hj, hr, hstatus⟩ := hterm
  rintro ⟨j', r', hj', hr', hstatus'⟩
  rw [hj] at hj'
  obtain rfl := Option.some_injective _ hj'.symm
  rw [hr] at hr'
  obtain rfl := Except.ok.inj hr'.symm
  rcases hstatus with h | h <;> rw [hstatus'] at h <;> simp at h

/-! ## Claim theorems -/

/-- C1: whenever `RegisterDevice(deviceID, owner, location)` succeeds,
`GetDevice(deviceID)` on the resulting state succeeds and returns a
`Device` whose id, owner and location equal the inputs and whose status
is `"active"`. -/
theorem register_then_get_device (st st' : Ledger) (d o l : String)
    (h : registerDevice st d o l = .ok st') :
    getDevice st' d = .ok ⟨d, o, l, "active"⟩ := by
  rw [registerDevice_ok_iff] at h
  obtain ⟨-, rfl⟩ := h
  exact getDevice_of_stored _ _ _ (put_same _ _ _)

theorem register_then_get_device_witness :
    getDevice stDev "d" = .ok ⟨"d", "o", "l", "active"⟩ :=
  register_then_get_device emptyLedger stDev "d" "o" "l" rfl

/-- C2: after a successful `RegisterDevice(deviceID, _, _)`, a second
`RegisterDevice` with the same id (any owner and location) returns the
AlreadyExists error, and the value stored under key `deviceID` is
exactly the device written by the first call; the failing call returns
no new state, so the ledger is untouched by it. -/
theorem register_duplicate_rejected (st st' : Ledger)
    (d o l o' l' : String) (h : registerDevice st d o l = .ok st') :
    registerDevice st' d o' l' = .error (.alreadyExists d) ∧
    st' (.simple d) = some (Device.marshal ⟨d, o, l, "active"⟩) := by
  rw [registerDevice_ok_iff] at h
  obtain ⟨-, rfl⟩ := h
  refine ⟨?_, put_same _ _ _⟩
  rw [registerDevice_error_iff]
  exact ⟨by simp [deviceExists, put_same], rfl⟩

theorem register_duplicate_rejected_witness :
    registerDevice stDev "d" "o2" "l2" = .error (.alreadyExists "d") ∧
    stDev (.simple "d") = some (Device.marshal ⟨"d", "o", "l", "active"⟩) :=
  register_duplicate_rejected emptyLedger stDev "d" "o" "l" "o2" "l2" rfl

/-- C3: in any reachable ledger state with no device registered under
`deviceID`, `SubmitData(deviceID, timestamp, data)` returns the
DeviceNotRegistered error (producing no new state, so the ledger is
unchanged) and `GetDataRecord(deviceID, timestamp)` on that state
returns NotFound. -/
theorem submit_unregistered_no_record (st : Ledger) (d t x : String)
    (hreach : Reachable st) (hdev : deviceExists st d = false) :
    submitData st d t x = .error (.deviceNotRegistered d) ∧
    getDataRecord st d t = .error .notFound := by
  have hwf := reachable_ledgerWF st hreach
  have habs : st (dataRecordKey d t) = none := by
    cases hk : st (dataRecordKey d t) with
    | none => rfl
    | some j =>
      obtain ⟨hdev', -⟩ := hwf d t j hk
      simp [hdev] at hdev'
  exact ⟨by rw [submitData_error_iff]; exact ⟨hdev, rfl⟩,
    getDataRecord_of_absent st d t habs⟩

theorem submit_unregistered_no_record_witness :
    submitData emptyLedger "d" "t" "x" = .error (.deviceNotRegistered "d") ∧
    getDataRecord emptyLedger "d" "t" = .error .notFound :=
  submit_unregistered_no_record emptyLedger "d" "t" "x" .empty rfl

/-- C4: in any state where a device is registered under `deviceID`,
`SubmitData(deviceID, timestamp, data)` succeeds and
`GetDataRecord(deviceID, timestamp)` on the resulting state returns a
record with exactly the submitted fields, status `"pending"` and empty
verifierID. -/
theorem submit_then_get_record (st : Ledger) (d t x : String)
    (hdev : deviceExists st d = true) :
    ∃ st', submitData st d t x = .ok st' ∧
      getDataRecord st' d t = .ok ⟨d, t, x, "pending", ""⟩ := by
  refine ⟨_, (submitData_ok_iff st _ d t x).mpr ⟨hdev, rfl⟩, ?_⟩
  exact getDataRecord_of_stored _ d t _ (put_same _ _ _)

theorem submit_then_get_record_witness :
    ∃ st', submitData stDev "d" "t" "x" = .ok st' ∧
      getDataRecord st' "d" "t" = .ok ⟨"d", "t", "x", "pending", ""⟩ :=
  submit_then_get_record stDev "d" "t" "x" rfl

/-- C5: for any state holding a parseable record under the composite key
of `(deviceID, timestamp)`, whatever its current status and verifier,
`VerifyData(deviceID, timestamp, verifierID, isValid)` succeeds and the
stored record afterwards has status `"verified"` when `isValid` is true
and `"rejected"` otherwise, and the supplied verifierID, overwriting the
prior values. -/
theorem verify_overwrites_status (st : Ledger) (d t v : String) (b : Bool)
    (j : JsonValue) (r : DataRecord)
    (hj : st (dataRecordKey d t) = some j)
    (hr : DataRecord.unmarshal j = .ok r) :
    ∃ st', verifyData st d t v b = .ok st' ∧
      st' (dataRecordKey d t) = some (DataRecord.marshal
        { r with status := if b then "verified" else "rejected",
                 verifierID := v }) := by
  exact ⟨_, (verifyData_ok_iff st _ d t v b).mpr ⟨j, r, hj, hr, rfl⟩,
    put_same _ _ _⟩

theorem verify_overwrites_status_witness :
    ∃ st', verifyData stVer "d" "t" "v2" false = .ok st' ∧
      st' (dataRecordKey "d" "t") = some (DataRecord.marshal
        { (⟨"d", "t", "x", "verified", "v"⟩ : DataRecord) with
          status := if false then "verified" else "rejected",
          verifierID := "v2" }) :=
  verify_overwrites_status stVer "d" "t" "v2" false
    (DataRecord.marshal ⟨"d", "t", "x", "verified", "v"⟩)
    ⟨"d", "t", "x", "verified", "v"⟩ rfl rfl

/-- C6 (counterexample): the claim that a verified record admits no path
back to pending is false for the full step relation. In the reachable
state `stVer` the record at `("d", "t")` is verified, yet one
`SubmitData("d", "t", "y")` step overwrites it with a fresh pending
record, as spec sections 3 and 4.2 themselves note for re-submission. -/
theorem verified_resubmitted_to_pending :
    Reachable stVer ∧
    getDataRecord stVer "d" "t" = .ok ⟨"d", "t", "x", "verified", "v"⟩ ∧
    Step stVer stRePend ∧
    getDataRecord stRePend "d" "t" = .ok ⟨"d", "t", "y", "pending", ""⟩ := by
  refine ⟨?_, rfl, .submit _ _ "d" "t" "y" rfl, rfl⟩
  exact .step _ _ (.step _ _ (.step _ _ .empty (.register _ _ "d" "o" "l" rfl))
    (.submit _ _ "d" "t" "x" rfl)) (.verify _ _ "d" "t" "v" true rfl)

/-- C6 (amended): once the record stored under the composite key of
`(d, t)` is terminal (verified or rejected), no sequence of operation
steps that does not re-submit data for that same `(deviceID, timestamp)`
pair can take it back to pending; only a repeated `SubmitData` on that
key resets it. -/
theorem terminal_no_pending_without_resubmit (d t : String)
    (st st' : Ledger) (hterm : TerminalAt st d t)
    (h : Steps (StepNR d t) st st') : ¬ PendingAt st' d t :=
  terminalAt_not_pendingAt st' d t (terminalAt_stepsNR d t st st' hterm h)

theorem terminal_no_pending_without_resubmit_witness :
    TerminalAt stVer "d" "t" ∧ ¬ PendingAt stReVer "d" "t" :=
  ⟨⟨DataRecord.marshal ⟨"d", "t", "x", "verified", "v"⟩,
    ⟨"d", "t", "x", "verified", "v"⟩, rfl, rfl, Or.inl rfl⟩,
   terminal_no_pending_without_resubmit "d" "t" stVer stReVer
    ⟨DataRecord.marshal ⟨"d", "t", "x", "verified", "v"⟩,
      ⟨"d", "t", "x", "verified", "v"⟩, rfl, rfl, Or.inl rfl⟩
    (.tail stVer stVer stReVer (.refl stVer)
      (.verify stVer stReVer "d" "t" "v2" false rfl))⟩

/-- C7: in every ledger state reachable from the empty state by the
public operations, every stored data record's deviceID field refers to
a device that is registered in that same state (spec invariant I2). -/
theorem reachable_referential_integrity (st : Ledger) (h : Reachable st) :
    RefIntegrity st := by
  intro d t j r hj hr
  obtain ⟨hdev, r', hr', hid⟩ := reachable_ledgerWF st h d t j hj
  rw [hr] at hr'
  obtain rfl := Except.ok.inj hr'
  rw [hid]
  exact hdev

theorem reachable_referential_integrity_witness :
    Reachable stPend ∧ RefIntegrity stPend := by
  have h : Reachable stPend :=
    .step _ _ (.step _ _ .empty (.register _ _ "d" "o" "l" rfl))
      (.submit _ _ "d" "t" "x" rfl)
  exact ⟨h, reachable_referential_integrity stPend h⟩

/-- C8: serializing then deserializing any `Device` or any `DataRecord`
yields the original value; in particular a record with empty verifierID,
whose serialized object omits that field, still round-trips. -/
theorem serialize_roundtrip :
    (∀ d : Device, Device.unmarshal d.marshal = .ok d) ∧
    (∀ r : DataRecord, DataRecord.unmarshal r.marshal = .ok r) :=
  ⟨device_roundtrip, dataRecord_roundtrip⟩

/-- C9: atomicity of the three mutating operations. Each one that
succeeds produces exactly the prior state with a single `Put` applied,
and only under the operation's validation conditions; each one that
fails returns one of the validation errors and produces no state at
all, so the ledger seen by any later operation is exactly the
pre-call state. -/
theorem mutators_atomic (st : Ledger) (d o l t x v : String) (b : Bool) :
    (∀ st', registerDevice st d o l = .ok st' →
      deviceExists st d = false ∧
      st' = st.put (.simple d) (Device.marshal ⟨d, o, l, "active"⟩)) ∧
    (∀ e, registerDevice st d o l = .error e →
      deviceExists st d = true ∧ e = .alreadyExists d) ∧
    (∀ st', submitData st d t x = .ok st' →
      deviceExists st d = true ∧
      st' = st.put (dataRecordKey d t)
        (DataRecord.marshal ⟨d, t, x, "pending", ""⟩)) ∧
    (∀ e, submitData st d t x = .error e →
      deviceExists st d = false ∧ e = .deviceNotRegistered d) ∧
    (∀ st', verifyData st d t v b = .ok st' →
      ∃ j r, st (dataRecordKey d t) = some j ∧
        DataRecord.unmarshal j = .ok r ∧
        st' = st.put (dataRecordKey d t) (DataRecord.marshal
          { r with status := if b then "verified" else "rejected",
                   verifierID := v })) ∧
    (∀ e, verifyData st d t v b = .error e →
      (st (dataRecordKey d t) = none ∧ e = .notFound) ∨
      (∃ j, st (dataRecordKey d t) = some j ∧
        DataRecord.unmarshal j = .error () ∧ e = .deserializationError)) :=
  ⟨fun st' h => (registerDevice_ok_iff st st' d o l).mp h,
   fun e h => (registerDevice_error_iff st d o l e).mp h,
   fun st' h => (submitData_ok_iff st st' d t x).mp h,
   fun e h => (submitData_error_iff st d t x e).mp h,
   fun st' h => (verifyData_ok_iff st st' d t v b).mp h,
   fun e h => (verifyData_error_iff st d t v b e).mp h⟩

theorem mutators_atomic_witness :
    deviceExists emptyLedger "d" = false ∧
    stDev = emptyLedger.put (.simple "d")
      (Device.marshal ⟨"d", "o", "l", "active"⟩) :=
  (mutators_atomic emptyLedger "d" "o" "l" "t" "x" "v" true).1 stDev rfl

/-- C10: frame property of `VerifyData`. A successful call on a stored,
parseable record writes only the record's own composite key, and the
new stored record keeps the old deviceID, timestamp and data fields,
changing only status and verifierID. -/
theorem verify_frame (st st' : Ledger) (d t v : String) (b : Bool)
    (j : JsonValue) (r : DataRecord)
    (hj : st (dataRecordKey d t) = some j)
    (hr : DataRecord.unmarshal j = .ok r)
    (hok : verifyData st d t v b = .ok st') :
    (∃ r', st' (dataRecordKey d t) = some (DataRecord.marshal r') ∧
      r'.deviceID = r.deviceID ∧ r'.timestamp = r.timestamp ∧
      r'.data = r.data) ∧
    ∀ k, k ≠ dataRecordKey d t → st' k = st k := by
  rw [verifyData_ok_iff] at hok
  obtain ⟨j0, r0, hj0, hr0, rfl⟩ := hok
  rw [hj] at hj0
  obtain rfl := Option.some_injective _ hj0.symm
  rw [hr] at hr0
  obtain rfl := Except.ok.inj hr0
  refine ⟨⟨_, put_same _ _ _, rfl, rfl, rfl⟩, ?_⟩
  intro k hk
  exact put_other _ _ _ _ hk

theorem verify_frame_witness :
    (∃ r', stVer (dataRecordKey "d" "t") = some (DataRecord.marshal r') ∧
      r'.deviceID = (⟨"d", "t", "x", "pending", ""⟩ : DataRecord).deviceID ∧
      r'.timestamp = (⟨"d", "t", "x", "pending", ""⟩ : DataRecord).timestamp ∧
      r'.data = (⟨"d", "t", "x", "pending", ""⟩ : DataRecord).data) ∧
    ∀ k, k ≠ dataRecordKey "d" "t" → stVer k = stPend k :=
  verify_frame stPend stVer "d" "t" "v" true
    (DataRecord.marshal ⟨"d", "t", "x", "pending", ""⟩)
    ⟨"d", "t", "x", "pending", ""⟩ rfl rfl rfl
